import Mathlib

/-!
Verification development for the clipQueue repository (Go).

The definitions below are a shallow embedding of the program's core:
the input-signature engine (`platform/windows/input.go`), the hotkey
string parsers (`internal/config` and `platform/windows/hotkeys.go`),
and the clipboard queue controller (`internal/app`, the version whose
`OnClipboardUpdate` maintains the 50-entry history).

Machine integers are modelled as `Nat` with explicit `% 2^w` at the
points where Go performs a conversion or where overflow can occur.
Byte sequences are `List Nat` whose elements are intended to be `< 256`;
theorems add that bound as a hypothesis where the value of a byte
matters.  Fallible Go functions returning `(T, error)` are modelled as
`Except String T`.
-/

namespace ClipQueue

/-! ## FNV-1a 64-bit hash (`hash/fnv`, as used by `computeHash`) -/

/-- One FNV-1a step: xor in a byte, multiply by the 64-bit FNV prime,
reduce modulo 2^64 (Go's `uint64` arithmetic wraps). -/
def fnv1a64Step (h b : Nat) : Nat :=
  ((h ^^^ b) * 1099511628211) % 18446744073709551616

/-- FNV-1a 64 over a byte sequence, starting from the 64-bit offset basis.
Models `fnv.New64a(); h.Write(bs); h.Sum64()`. -/
def fnv1a64 (bs : List Nat) : Nat :=
  bs.foldl fnv1a64Step 14695981247419264217

/-! ## InputSignature (`platform/windows/input.go`) -/

/-- `windows.InputSignature`.  `sourceType` and `modifierState` are Go
`uint8` values (so `< 256` in every state the program builds); `hash` is a
Go `uint64`.  The `RecordedAt time.Time` field is not part of identity,
serialization or matching and is omitted. -/
structure InputSignature where
  hash : Nat
  rawData : List Nat
  sourceType : Nat
  displayHint : String
  modifierState : Nat
deriving Repr, DecidableEq

/-- `InputSignature.computeHash`: FNV-1a 64 over
`byte(sourceType) ‖ modifierState ‖ rawData`. -/
def computeHash (sourceType modifierState : Nat) (rawData : List Nat) : Nat :=
  fnv1a64 ((sourceType % 256) :: (modifierState % 256) :: rawData)

/-- The `keyMap` table of `platform/windows/hotkeys.go` (the table in
`internal/config` has exactly the same entries), in source order. -/
def keyMapPairs : List (String × Nat) :=
  [("A", 0x41), ("B", 0x42), ("C", 0x43), ("D", 0x44), ("E", 0x45),
   ("F", 0x46), ("G", 0x47), ("H", 0x48), ("I", 0x49), ("J", 0x4A),
   ("K", 0x4B), ("L", 0x4C), ("M", 0x4D), ("N", 0x4E), ("O", 0x4F),
   ("P", 0x50), ("Q", 0x51), ("R", 0x52), ("S", 0x53), ("T", 0x54),
   ("U", 0x55), ("V", 0x56), ("W", 0x57), ("X", 0x58), ("Y", 0x59),
   ("Z", 0x5A),
   ("0", 0x30), ("1", 0x31), ("2", 0x32), ("3", 0x33), ("4", 0x34),
   ("5", 0x35), ("6", 0x36), ("7", 0x37), ("8", 0x38), ("9", 0x39),
   ("F1", 0x70), ("F2", 0x71), ("F3", 0x72), ("F4", 0x73),
   ("F5", 0x74), ("F6", 0x75), ("F7", 0x76), ("F8", 0x77),
   ("F9", 0x78), ("F10", 0x79), ("F11", 0x7A), ("F12", 0x7B),
   ("VOLUMEMUTE", 0xAD), ("VOLUMEDOWN", 0xAE), ("VOLUMEUP", 0xAF),
   ("MEDIANEXTTRACK", 0xB0), ("MEDIAPREVTRACK", 0xB1), ("MEDIASTOP", 0xB2),
   ("MEDIAPLAYPAUSE", 0xB3), ("LAUNCHMAIL", 0xB4),
   ("LAUNCHMEDIASELECT", 0xB5), ("LAUNCHAPP1", 0xB6), ("LAUNCHAPP2", 0xB7),
   ("AUDIOVOLUMEMUTE", 0xAD), ("AUDIOVOLUMEDOWN", 0xAE),
   ("AUDIOVOLUMEUP", 0xAF), ("GRAVE", 0xC0), ("TILDE", 0xC0)]

/-- Lookup in `keyMap` (keys are unique, so first match is the match). -/
def keyMapLookup (s : String) : Option Nat :=
  (keyMapPairs.find? (fun p => p.1 == s)).map (fun p => p.2)

/-- `vkToName`: reverse lookup of a virtual-key code in `keyMap`.  The Go
code iterates the map, whose order is unspecified; for codes with several
names (0xAD..0xAF, 0xC0) we deterministically pick the first name in
source order.  No theorem below depends on which alias is picked. -/
def vkToName (vk : Nat) : String :=
  ((keyMapPairs.find? (fun p => p.2 == vk)).map (fun p => p.1)).getD ""

/-- Uppercase hexadecimal rendering of a `Nat`, as Go's `%X` verb. -/
def natToHexUpper (n : Nat) : String :=
  String.mk ((Nat.toDigits 16 n).map Char.toUpper)

/-- Modifier bit masks (`ModCtrl`/`ModAlt`/`ModShift`/`ModWin`). -/
def ModCtrl : Nat := 1
def ModAlt : Nat := 2
def ModShift : Nat := 4
def ModWin : Nat := 8

/-- `InputSignature.generateDisplayHint`.  `sourceType` values follow the
Go enum: 0 Keyboard, 1 MouseButton, 2 MouseWheel, 3 HID, default Unknown.
The default branch reads the (already computed) `hash` field. -/
def generateDisplayHint (sourceType modifierState : Nat) (rawData : List Nat)
    (hash : Nat) : String :=
  let mods :=
    (if modifierState &&& ModCtrl ≠ 0 then ["Ctrl"] else []) ++
    (if modifierState &&& ModAlt ≠ 0 then ["Alt"] else []) ++
    (if modifierState &&& ModShift ≠ 0 then ["Shift"] else []) ++
    (if modifierState &&& ModWin ≠ 0 then ["Win"] else [])
  let srcPart :=
    if sourceType = 0 then
      match rawData with
      | b0 :: b1 :: _ =>
        let vk := b0 + 256 * b1
        if vkToName vk ≠ "" then vkToName vk
        else "Key[0x" ++ natToHexUpper vk ++ "]"
      | _ => "Key[?]"
    else if sourceType = 1 then
      match rawData with
      | b0 :: _ => "Mouse" ++ toString b0
      | _ => "Mouse[?]"
    else if sourceType = 2 then
      match rawData with
      | b0 :: b1 :: _ =>
        -- `int16(LE16(b0,b1)) > 0` for a 16-bit two's-complement value
        let u := b0 + 256 * b1
        if 0 < u ∧ u < 32768 then "WheelUp" else "WheelDown"
      | _ => "Wheel[?]"
    else if sourceType = 3 then
      match rawData with
      | b0 :: _ => "HID[" ++ natToHexUpper b0 ++ "...]"
      | _ => "HID[?]"
    else "Input[0x" ++ natToHexUpper (hash &&& 0xFFFF) ++ "]"
  String.intercalate "+" (mods ++ [srcPart])

/-- `InputSignature.ToBytes`: versioned layout
`[version=1][sourceType][modifierState][len:2 LE][rawData]`.
`uint16(len(s.RawData))` truncates the length to 16 bits, hence the
`% 256` / `/ 256 % 256` low/high bytes. -/
def ToBytes (s : InputSignature) : List Nat :=
  1 :: (s.sourceType % 256) :: (s.modifierState % 256) ::
  (s.rawData.length % 256) :: ((s.rawData.length / 256) % 256) :: s.rawData

/-- `SignatureFromBytes`.  The Go code checks `len(data) < 4` and the
version byte, then reads the declared length (a failed 2-byte read is
ignored and leaves `rawLen = 0`) and copies however many of the declared
bytes are available into a zero-initialised buffer of the declared
length — the results of `binary.Read` and `buf.Read` are discarded, so a
declared length larger than the remaining input is NOT an error. -/
def SignatureFromBytes (data : List Nat) : Except String InputSignature :=
  if data.length < 4 then .error "signature data too short"
  else
    match data with
    | version :: srcType :: mods :: rest =>
      if version ≠ 1 then .error "unsupported signature version"
      else
        let rawLen :=
          match rest with
          | b0 :: b1 :: _ => b0 + 256 * b1
          | _ => 0
        let avail := rest.drop 2
        let rawData := avail.take rawLen ++ List.replicate (rawLen - avail.length) 0
        let h := computeHash srcType mods rawData
        .ok { hash := h, rawData := rawData, sourceType := srcType,
              displayHint := generateDisplayHint srcType mods rawData h,
              modifierState := mods }
    | _ => .error "signature data too short"

/-- `InputSignature.Equals`: hash first, then source type, modifiers, and
the raw bytes (the hash check alone is explicitly not trusted). -/
def Equals (s other : InputSignature) : Bool :=
  s.hash == other.hash && s.sourceType == other.sourceType &&
  s.modifierState == other.modifierState && s.rawData == other.rawData

/-- Structural equality in the sense of the spec: same source type, same
modifier state, byte-equal raw data (the `hash` field not consulted). -/
def structEq (s other : InputSignature) : Bool :=
  s.sourceType == other.sourceType &&
  s.modifierState == other.modifierState && s.rawData == other.rawData

/-! ## SignatureMatcher (`platform/windows/input.go`) -/

/-- Go callbacks (`func()`) are opaque values compared only by identity;
they are modelled as tokens. -/
abbrev Callback := Nat

/-- `windows.RegisteredSignature`. -/
structure RegisteredSignature where
  signature : InputSignature
  callback : Callback
  id : String
deriving Repr, DecidableEq

/-- The matcher's `map[uint64][]*RegisteredSignature`, modelled as a
total function from hash to bucket; an absent key is the empty bucket
(Go's `regs, ok := m.signatures[h]` with `!ok` and an empty bucket both
make `Match` return nothing). -/
def Matcher := Nat → List RegisteredSignature

/-- A fresh matcher: every bucket empty (`NewSignatureMatcher`). -/
def Matcher.empty : Matcher := fun _ => []

/-- `SignatureMatcher.Register`: append to the bucket keyed by the
signature's `hash` field. -/
def Register (m : Matcher) (sig : InputSignature) (id : String)
    (cb : Callback) : Matcher :=
  fun h => if h = sig.hash then m h ++ [⟨sig, cb, id⟩] else m h

/-- `SignatureMatcher.Match`: look up the bucket for the query's hash and
return the callback of the first entry whose stored signature `Equals`
the query. -/
def Match (m : Matcher) (sig : InputSignature) : Option Callback :=
  match (m sig.hash).find? (fun reg => Equals reg.signature sig) with
  | some reg => some reg.callback
  | none => none

/-- Bucket keying invariant: every registration sits in the bucket of its
signature's `hash` field.  `Matcher.empty` satisfies it and `Register`
preserves it, so every registry state the program builds satisfies it. -/
def WellFormed (m : Matcher) : Prop :=
  ∀ h reg, reg ∈ m h → reg.signature.hash = h

theorem wellFormed_empty : WellFormed Matcher.empty := by
  intro h reg hmem
  simp [Matcher.empty] at hmem

theorem wellFormed_register (m : Matcher) (sig : InputSignature)
    (id : String) (cb : Callback) (hwf : WellFormed m) :
    WellFormed (Register m sig id cb) := by
  intro h reg hmem
  unfold Register at hmem
  split at hmem
  next hh =>
    subst hh
    rcases List.mem_append.mp hmem with hmem' | hmem'
    · exact hwf _ _ hmem'
    · rw [List.mem_singleton.mp hmem']
  next hh =>
    exact hwf _ _ hmem

/-! ## Hotkey string parsing (`internal/config` and
`platform/windows/hotkeys.go`)

Both packages contain a `parseHotkey` splitting the uppercased string on
`+`, folding modifier names into a `uint32` mask and looking every other
part up in `keyMap`.  They differ in exactly one point: on an unknown
key name (and on "no key found") the `config` version returns a non-nil
error, while the `windows.Hotkeys` version only logs and returns
`(0, 0, nil)`.  Go's `strings.ToUpper`/`TrimSpace`/`strings.Split` are
modelled by the ASCII char-list functions below (all key and modifier
names are ASCII). -/

/-- `strings.ToUpper`, for ASCII content. -/
def toUpperAscii (s : String) : String :=
  String.mk (s.data.map Char.toUpper)

/-- `strings.TrimSpace`, for ASCII whitespace. -/
def trimAscii (s : String) : String :=
  String.mk
    (((s.data.dropWhile Char.isWhitespace).reverse.dropWhile
        Char.isWhitespace).reverse)

/-- Helper of `splitPlus`: split a char list on `+`, accumulating the
current (reversed) field. -/
def splitPlusAux : List Char → List Char → List String
  | [], acc => [String.mk acc.reverse]
  | ch :: cs, acc =>
    if ch = '+' then String.mk acc.reverse :: splitPlusAux cs []
    else splitPlusAux cs (ch :: acc)

/-- `strings.Split(s, "+")`. -/
def splitPlus (s : String) : List String :=
  splitPlusAux s.data []

/-- Shared loop of the two parsers: `onUnknown`/`onNoKey` say what each
version returns in its two failure branches. -/
def parseHotkeyLoop (onUnknown : String → Except String (Nat × Nat))
    (onNoKey : Except String (Nat × Nat)) :
    List String → Nat → Nat → Bool → Except String (Nat × Nat)
  | [], mods, vk, foundKey =>
    if foundKey then .ok (mods, vk) else onNoKey
  | p :: rest, mods, vk, foundKey =>
    let part := trimAscii p
    if part = "CTRL" ∨ part = "CONTROL" then
      parseHotkeyLoop onUnknown onNoKey rest (mods ||| 2) vk foundKey
    else if part = "ALT" then
      parseHotkeyLoop onUnknown onNoKey rest (mods ||| 1) vk foundKey
    else if part = "SHIFT" then
      parseHotkeyLoop onUnknown onNoKey rest (mods ||| 4) vk foundKey
    else if part = "WIN" then
      parseHotkeyLoop onUnknown onNoKey rest (mods ||| 8) vk foundKey
    else
      match keyMapLookup part with
      | some code => parseHotkeyLoop onUnknown onNoKey rest mods code true
      | none => onUnknown part

/-- `config.parseHotkey` (internal/config): unknown key names and
key-less strings are returned as errors to the caller. -/
def configParseHotkey (hotkeyString : String) : Except String (Nat × Nat) :=
  parseHotkeyLoop
    (fun part => .error ("unknown key: " ++ part))
    (.error ("no valid key found in hotkey: " ++ hotkeyString))
    (splitPlus (toUpperAscii hotkeyString)) 0 0 false

/-- `Hotkeys.parseHotkey` (platform/windows/hotkeys.go): the unknown-key
and no-key branches merely log `logger.Error(...)` and `return 0, 0, nil`
— the error value handed back to the caller is nil. -/
def windowsParseHotkey (hotkeyString : String) : Except String (Nat × Nat) :=
  parseHotkeyLoop
    (fun _ => .ok (0, 0))
    (.ok (0, 0))
    (splitPlus (toUpperAscii hotkeyString)) 0 0 false

/-! ## Clipboard content -/

/-- `windows.ContentType` (Empty, Text, Files, Image). -/
inductive ContentType where
  | Empty
  | Text
  | Files
  | Image
deriving Repr, DecidableEq

/-- Modelled from the spec: the `windows.ClipboardContent` value consumed
by the controller.  The struct version shipped under `src/` predates the
controller and lacks the `ID` and `Timestamp` fields the controller reads
(`CopyItem` matches on `item.ID`; deduplication subtracts `Timestamp`s),
so those two fields are taken from the spec's ClipboardItem
(`{id, contentType, payload, sizeBytes, preview, timestamp}`); the rest
mirror the struct in `src/`.  `timestamp` is in nanoseconds, as Go's
`time.Time`/`time.Duration`. -/
structure ClipboardContent where
  id : String
  type : ContentType
  text : String
  files : List String
  imagePNG : List Nat
  sizeBytes : Int
  preview : String
  timestamp : Int
deriving Repr, DecidableEq

/-! ## Queue controller (`internal/app`)

Each operation is modelled as a pure state transition that also returns
the ordered trace of its lock acquisitions, lock releases and
`onStateChange` invocations, in the program order of the Go source
(a `defer c.mu.Unlock()` fires at function exit, i.e. after anything the
body does, including callback calls).  External calls — `windows.Read`,
`windows.Write`, `windows.GetClipboardSequenceNumber` — are inputs:
their results are passed in as arguments. -/

/-- One observable step of a controller operation. -/
inductive Event where
  | lock
  | unlock
  | stateChange (enabled : Bool) (count : Nat) (mode : String)
deriving Repr, DecidableEq

/-- `app.Controller` (the `cfg` pointer and the stored callback function
carry no state the claims mention and are omitted; callback invocations
appear in the event traces instead). -/
structure Controller where
  queueEnabled : Bool
  queue : List ClipboardContent
  history : List ClipboardContent
  snapshotOnEnable : Option ClipboardContent
  selfEventsRing : List Nat
  ringIndex : Nat
  ringSize : Nat
  orderStrategy : String
deriving Repr, DecidableEq

/-- `NewController`: eight-slot ring of Go zero values, order strategy
from configuration with fallback to LIFO. -/
def NewController (defaultOrder : String) : Controller :=
  { queueEnabled := false
    queue := []
    history := []
    snapshotOnEnable := none
    selfEventsRing := List.replicate 8 0
    ringIndex := 0
    ringSize := 8
    orderStrategy :=
      if defaultOrder ≠ "LIFO" ∧ defaultOrder ≠ "FIFO" then "LIFO"
      else defaultOrder }

/-- `Controller.isSelfEvent`: linear scan of all ring slots. -/
def isSelfEvent (c : Controller) (seq : Nat) : Bool :=
  c.selfEventsRing.any (fun s => s == seq)

/-- `Controller.addSelfEventLocked`: store at the write cursor, advance
it modulo the ring size. -/
def addSelfEventLocked (c : Controller) (seq : Nat) : Controller :=
  { c with
    selfEventsRing := c.selfEventsRing.set c.ringIndex seq
    ringIndex := (c.ringIndex + 1) % c.ringSize }

/-- `Controller.addSelfEvent`: lock, record, unlock. -/
def addSelfEvent (c : Controller) (seq : Nat) : Controller × List Event :=
  (addSelfEventLocked c seq, [.lock, .unlock])

/-- History rotation of `OnClipboardUpdate`: drop the head when already
at 50 entries, then append (lines `if len(c.history) >= 50 { c.history =
c.history[1:] }; c.history = append(c.history, content)`). -/
def pushHistory (hist : List ClipboardContent) (content : ClipboardContent) :
    List ClipboardContent :=
  (if hist.length ≥ 50 then hist.tail else hist) ++ [content]

/-- The deduplication test of `OnClipboardUpdate` (lines 160-174 of the
controller): a non-empty history whose last entry has the same type,
lies less than one second in the past, and matches the content (equal
text for Text, equal size otherwise). -/
def dupCheck (history : List ClipboardContent)
    (content : ClipboardContent) : Bool :=
  match history.getLast? with
  | some last =>
    content.type == last.type &&
    decide (content.timestamp - last.timestamp < 1000000000) &&
    (if content.type = ContentType.Text then content.text == last.text
     else content.sizeBytes == last.sizeBytes)
  | none => false

/-- `Controller.OnClipboardUpdate` (the history-keeping version).
`seq` is what `windows.GetClipboardSequenceNumber()` reports under the
lock; `readRes` is the result of `windows.Read()`.  Order of guards as in
the source: self-event suppression, read error, empty content,
deduplication against the last history entry (same type, under a second
apart, and text-equal for Text / size-equal otherwise), then history
append with rotation and, only when the queue is enabled, queue append
plus state-change callback (still under the deferred lock). -/
def OnClipboardUpdate (c : Controller) (seq : Nat)
    (readRes : Except Unit ClipboardContent) : Controller × List Event :=
  if isSelfEvent c seq then (c, [.lock, .unlock])
  else
    match readRes with
    | .error _ => (c, [.lock, .unlock])
    | .ok content =>
      if content.type = ContentType.Empty then (c, [.lock, .unlock])
      else
        if dupCheck c.history content then (c, [.lock, .unlock])
        else
          if c.queueEnabled then
            ({ c with history := pushHistory c.history content
                      queue := c.queue ++ [content] },
             [.lock,
              .stateChange c.queueEnabled (c.queue.length + 1) c.orderStrategy,
              .unlock])
          else
            ({ c with history := pushHistory c.history content },
             [.lock, .unlock])

/-- `Controller.ClearQueue`: both branches invoke the callback before the
deferred unlock. -/
def ClearQueue (c : Controller) : Controller × List Event :=
  if c.queue.isEmpty then
    (c, [.lock, .stateChange c.queueEnabled 0 c.orderStrategy, .unlock])
  else
    ({ c with queue := [] },
     [.lock, .stateChange c.queueEnabled 0 c.orderStrategy, .unlock])

/-- `Controller.ToggleOrder`. -/
def ToggleOrder (c : Controller) : Controller × List Event :=
  let newOrder := if c.orderStrategy = "LIFO" then "FIFO" else "LIFO"
  ({ c with orderStrategy := newOrder },
   [.lock, .stateChange c.queueEnabled c.queue.length newOrder, .unlock])

/-- `Controller.SetOrderStrategy` (error text abridged from the Russian
original). -/
def SetOrderStrategy (c : Controller) (order : String) :
    Controller × Except String Unit × List Event :=
  if order ≠ "LIFO" ∧ order ≠ "FIFO" then
    (c, .error ("unsupported order strategy: " ++ order), [.lock, .unlock])
  else if c.orderStrategy = order then
    (c, .ok (), [.lock, .unlock])
  else
    ({ c with orderStrategy := order }, .ok (),
     [.lock, .stateChange c.queueEnabled c.queue.length order, .unlock])

/-- `Controller.RemoveItem`: bounds check, then
`append(c.queue[:index], c.queue[index+1:]...)`. -/
def RemoveItem (c : Controller) (index : Int) :
    Controller × Except String Unit × List Event :=
  if index < 0 ∨ index ≥ (c.queue.length : Int) then
    (c, .error "invalid index", [.lock, .unlock])
  else
    let i := index.toNat
    ({ c with queue := c.queue.take i ++ c.queue.drop (i + 1) }, .ok (),
     [.lock,
      .stateChange c.queueEnabled (c.queue.length - 1) c.orderStrategy,
      .unlock])

/-- Results of the external calls `PasteNext` makes after releasing the
lock, in the order the source makes them. -/
structure PasteEnv where
  readBefore : Except Unit ClipboardContent
  writeItemOk : Bool
  seqAfterWrite : Nat
  sendCtrlVOk : Bool
  seqAfterErrRestore : Nat
  seqAfterRestore : Nat
deriving Repr

/-- `Controller.PasteNext`: no-op when disabled or empty; dequeue from
the tail (LIFO) or head (FIFO); the state-change callback fires before
`c.mu.Unlock()`; then, outside the lock, save/write/Ctrl+V/restore with a
self-event recorded after each own write (each `addSelfEvent` re-locks).
Returns the dequeued item (if any) alongside the state and trace. -/
def PasteNext (c : Controller) (env : PasteEnv) :
    Controller × Option ClipboardContent × List Event :=
  if c.queueEnabled = false then (c, none, [.lock, .unlock])
  else
    match c.queue with
    | [] => (c, none, [.lock, .unlock])
    | x :: xs =>
      let item :=
        if c.orderStrategy = "LIFO" then (x :: xs).getLast (List.cons_ne_nil x xs)
        else x
      let rest := if c.orderStrategy = "LIFO" then (x :: xs).dropLast else xs
      let c1 := { c with queue := rest }
      let evts := [Event.lock,
                   Event.stateChange c.queueEnabled rest.length c.orderStrategy,
                   Event.unlock]
      match env.readBefore with
      | .error _ => (c1, some item, evts)
      | .ok _ =>
        if env.writeItemOk = false then (c1, some item, evts)
        else
          let (c2, e2) := addSelfEvent c1 env.seqAfterWrite
          if env.sendCtrlVOk = false then
            -- `_ = windows.Write(before)` (result discarded), then record
            let (c3, e3) := addSelfEvent c2 env.seqAfterErrRestore
            (c3, some item, evts ++ e2 ++ e3)
          else
            -- restore `before` (write error only logged), then record
            let (c3, e3) := addSelfEvent c2 env.seqAfterRestore
            (c3, some item, evts ++ e2 ++ e3)

/-- Results of the external calls `ToggleQueue` makes: the snapshot
`windows.Read()` assigns (the Go code stores `snap` even when the read
errored — `snap` is then the zero value), and the sequence number
recorded after restoring it. -/
structure ToggleEnv where
  snap : ClipboardContent
  seqAfterRestore : Nat
deriving Repr

/-- `Controller.ToggleQueue`: enabling snapshots the clipboard (lock
released around the read) and clears the queue; disabling clears the
queue and, when a snapshot exists, writes it back outside the lock and
records the sequence number.  Both branches invoke the callback after
unlocking. -/
def ToggleQueue (c : Controller) (env : ToggleEnv) : Controller × List Event :=
  if c.queueEnabled = false then
    ({ c with snapshotOnEnable := some env.snap
              queue := []
              queueEnabled := true },
     [.lock, .unlock, .lock, .unlock, .stateChange true 0 c.orderStrategy])
  else
    match c.snapshotOnEnable with
    | some _ =>
      let c1 := { c with queueEnabled := false, queue := [],
                         snapshotOnEnable := none }
      let c2 := addSelfEventLocked c1 env.seqAfterRestore
      (c2, [.lock, .unlock, .lock, .unlock,
            .stateChange false 0 c.orderStrategy])
    | none =>
      ({ c with queueEnabled := false, queue := [] },
       [.lock, .unlock, .stateChange false 0 c.orderStrategy])

/-- Fold a sequence of clipboard-change notifications through the
controller. -/
def runUpdates (c : Controller)
    (updates : List (Nat × Except Unit ClipboardContent)) : Controller :=
  updates.foldl (fun s u => (OnClipboardUpdate s u.1 u.2).1) c

/-- Whether a trace contains a `stateChange` callback invocation at a
point where the lock depth (acquisitions minus releases so far) is
positive, i.e. while the invoking operation holds the lock. -/
def callbackUnderLock (tr : List Event) : Bool :=
  (tr.foldl
    (fun (acc : Nat × Bool) e =>
      match e with
      | .lock => (acc.1 + 1, acc.2)
      | .unlock => (acc.1 - 1, acc.2)
      | .stateChange _ _ _ => (acc.1, acc.2 || decide (0 < acc.1)))
    (0, false)).2

/-! ## Sample values used to instantiate theorems -/

/-- A concrete text clipboard item. -/
def sampleText : ClipboardContent :=
  { id := "id1", type := .Text, text := "hello", files := [], imagePNG := [],
    sizeBytes := 5, preview := "hello", timestamp := 0 }

/-- A second concrete text clipboard item. -/
def sampleText2 : ClipboardContent :=
  { id := "id2", type := .Text, text := "world", files := [], imagePNG := [],
    sizeBytes := 5, preview := "world", timestamp := 0 }

/-! ## General lemmas -/

theorem list_mem_set_self {α : Type} (l : List α) (i : Nat) (a : α)
    (h : i < l.length) : a ∈ l.set i a := by
  induction l generalizing i with
  | nil => simp at h
  | cons x xs ih =>
    cases i with
    | zero => simp
    | succ j =>
      simp only [List.set]
      exact List.mem_cons_of_mem _ (ih j (by simpa using h))

/-! ## Claim C1 -/

/-- C1: if the self-event ring contains the sequence number that
`OnClipboardUpdate` observes, the call leaves both history and queue
exactly unchanged; and after `addSelfEvent` records `n`, the ring
contains `n` (so `isSelfEvent n` holds).  The hypothesis
`ringIndex < length selfEventsRing` is the ring-shape invariant
established by `NewController` (index 0, eight slots) and preserved by
`addSelfEventLocked` (advance modulo `ringSize`). -/
theorem OnClipboardUpdate_self_event_suppression (c : Controller)
    (seq n : Nat) (readRes : Except Unit ClipboardContent)
    (hring : c.ringIndex < c.selfEventsRing.length) :
    (isSelfEvent c seq = true →
      (OnClipboardUpdate c seq readRes).1.history = c.history ∧
      (OnClipboardUpdate c seq readRes).1.queue = c.queue) ∧
    isSelfEvent (addSelfEvent c n).1 n = true := by
  constructor
  · intro hself
    simp [OnClipboardUpdate, hself]
  · have hmem : n ∈ c.selfEventsRing.set c.ringIndex n :=
      list_mem_set_self _ _ _ hring
    simp only [addSelfEvent, addSelfEventLocked, isSelfEvent, List.any_eq_true]
    exact ⟨n, hmem, by simp⟩

/-- Witness for C1 at a concrete controller. -/
theorem OnClipboardUpdate_self_event_suppression_witness :
    (isSelfEvent (NewController "LIFO") 0 = true →
      (OnClipboardUpdate (NewController "LIFO") 0 (.error ())).1.history =
        (NewController "LIFO").history ∧
      (OnClipboardUpdate (NewController "LIFO") 0 (.error ())).1.queue =
        (NewController "LIFO").queue) ∧
    isSelfEvent (addSelfEvent (NewController "LIFO") 7).1 7 = true :=
  OnClipboardUpdate_self_event_suppression (NewController "LIFO") 0 7
    (.error ()) (by decide)

/-! ## Claim C10 -/

/-- C10: a freshly constructed controller has a zero-filled eight-slot
ring, so `isSelfEvent 0` is true and an `OnClipboardUpdate` that observes
sequence number 0 is suppressed (controller state unchanged), while
`isSelfEvent n` is false for every `n ≠ 0`. -/
theorem NewController_suppresses_sequence_zero (defaultOrder : String)
    (n : Nat) (readRes : Except Unit ClipboardContent) (hn : n ≠ 0) :
    isSelfEvent (NewController defaultOrder) 0 = true ∧
    isSelfEvent (NewController defaultOrder) n = false ∧
    (OnClipboardUpdate (NewController defaultOrder) 0 readRes).1 =
      NewController defaultOrder := by
  have h0 : isSelfEvent (NewController defaultOrder) 0 = true := by
    simp [isSelfEvent, NewController, List.any_eq_true]
  refine ⟨h0, ?_, ?_⟩
  · simp only [isSelfEvent, NewController, List.any_eq_false]
    intro x hx
    rw [List.eq_of_mem_replicate hx]
    simpa using fun h => hn h.symm
  · simp [OnClipboardUpdate, h0]

/-- Witness for C10 at concrete inputs. -/
theorem NewController_suppresses_sequence_zero_witness :
    isSelfEvent (NewController "FIFO") 0 = true ∧
    isSelfEvent (NewController "FIFO") 3 = false ∧
    (OnClipboardUpdate (NewController "FIFO") 0 (.ok sampleText)).1 =
      NewController "FIFO" :=
  NewController_suppresses_sequence_zero "FIFO" 3 (.ok sampleText) (by decide)

/-! ## Claim C8 -/

/-- C8 (refuted — the code contradicts the spec's lock discipline):
`ClearQueue`, `ToggleOrder`, `SetOrderStrategy`, `RemoveItem`,
`OnClipboardUpdate` (enqueue path) and `PasteNext` all invoke the
`onStateChange` callback before releasing the mutex (the first four under
a `defer c.mu.Unlock()`, `PasteNext` one line before its explicit
unlock); only `ToggleQueue` invokes it after unlocking.  Each conjunct
evaluates one operation's event trace at a concrete state. -/
theorem onStateChange_invoked_under_lock :
    callbackUnderLock (ClearQueue (NewController "LIFO")).2 = true ∧
    callbackUnderLock (ToggleOrder (NewController "LIFO")).2 = true ∧
    callbackUnderLock
      (SetOrderStrategy (NewController "LIFO") "FIFO").2.2 = true ∧
    callbackUnderLock
      (RemoveItem { NewController "LIFO" with queue := [sampleText] } 0).2.2 =
        true ∧
    callbackUnderLock
      (OnClipboardUpdate
        { NewController "LIFO" with queueEnabled := true } 1
        (.ok sampleText)).2 = true ∧
    callbackUnderLock
      (PasteNext
        { NewController "LIFO" with queueEnabled := true,
                                    queue := [sampleText] }
        { readBefore := .error (), writeItemOk := false, seqAfterWrite := 0,
          sendCtrlVOk := false, seqAfterErrRestore := 0,
          seqAfterRestore := 0 }).2.2 = true ∧
    callbackUnderLock
      (ToggleQueue (NewController "LIFO") ⟨sampleText, 5⟩).2 = false := by
  decide

/-! ## Claim C9 -/

/-- C9 (the claim is right, the code is wrong in one of the two legacy
parsing paths): on a legacy hotkey string containing a part that is
neither a modifier nor a known key name, `config.parseHotkey` returns a
non-nil unknown-key error, but `Hotkeys.parseHotkey`
(platform/windows/hotkeys.go) only logs `logger.Error("Unknown key: …")`
and returns `(0, 0, nil)` — a nil error — to a caller that checks
`err != nil`. -/
theorem windows_parseHotkey_swallows_unknown_key :
    windowsParseHotkey "Ctrl+Alt+Foo" = .ok (0, 0) ∧
    configParseHotkey "Ctrl+Alt+Foo" = .error "unknown key: FOO" :=
  ⟨rfl, rfl⟩

/-! ## Claim C4 -/

/-- Counterexample to C4 as stated: the input `[1, 0, 0, 10, 0]` declares
a 10-byte rawData but carries 0 further bytes, yet `SignatureFromBytes`
accepts it (returning a zero-filled 10-byte rawData) instead of
erroring. -/
theorem SignatureFromBytes_accepts_overlong_declared_length :
    (SignatureFromBytes [1, 0, 0, 10, 0]).isOk = true ∧
    ((SignatureFromBytes [1, 0, 0, 10, 0]).toOption.map
        InputSignature.rawData) = some (List.replicate 10 0) :=
  ⟨rfl, rfl⟩

/-- C4 amended: `SignatureFromBytes` returns an error iff the input has
fewer than 4 bytes or its first (version) byte is not 1; a declared
rawData length exceeding the remaining bytes is NOT rejected (the
missing bytes are zero-filled). -/
theorem SignatureFromBytes_error_iff (data : List Nat) :
    (SignatureFromBytes data).isOk = false ↔
      data.length < 4 ∨ data.headI ≠ 1 := by
  rcases data with _ | ⟨v, _ | ⟨s, _ | ⟨m, _ | ⟨r, rest⟩⟩⟩⟩
  · simp [SignatureFromBytes, Except.isOk, Except.toBool]
  · simp [SignatureFromBytes, Except.isOk, Except.toBool]
  · simp [SignatureFromBytes, Except.isOk, Except.toBool]
  · simp [SignatureFromBytes, Except.isOk, Except.toBool]
  · have hguard : ¬ (v :: s :: m :: r :: rest).length < 4 := by
      simp only [List.length_cons]; omega
    by_cases hv : v = 1
    · subst hv
      simp only [SignatureFromBytes, if_neg hguard]
      simp [Except.isOk, Except.toBool, List.headI]
    · simp only [SignatureFromBytes, if_neg hguard]
      simp [hv, Except.isOk, Except.toBool, List.headI]

/-! ## Claim C3 -/

/-- Evaluation of `SignatureFromBytes` on a version-1 input of length at
least 5: the declared length is `b0 + 256*b1` and the raw data is the
declared number of payload bytes, zero-filled past the available ones. -/
theorem signatureFromBytes_cons_eq (srcType mods b0 b1 : Nat)
    (rest : List Nat) :
    SignatureFromBytes (1 :: srcType :: mods :: b0 :: b1 :: rest) =
      .ok { hash := computeHash srcType mods
              (rest.take (b0 + 256 * b1) ++
                List.replicate (b0 + 256 * b1 - rest.length) 0)
            rawData := rest.take (b0 + 256 * b1) ++
              List.replicate (b0 + 256 * b1 - rest.length) 0
            sourceType := srcType
            displayHint := generateDisplayHint srcType mods
              (rest.take (b0 + 256 * b1) ++
                List.replicate (b0 + 256 * b1 - rest.length) 0)
              (computeHash srcType mods
                (rest.take (b0 + 256 * b1) ++
                  List.replicate (b0 + 256 * b1 - rest.length) 0))
            modifierState := mods } := by
  have hguard : ¬ (1 :: srcType :: mods :: b0 :: b1 :: rest).length < 4 := by
    simp only [List.length_cons]
    omega
  simp only [SignatureFromBytes, if_neg hguard]
  simp [List.drop_succ_cons]

/-- Unfolding of `ToBytes` on a structure literal (pure projection
reduction). -/
theorem toBytes_mk (h st ms : Nat) (raw : List Nat) (dh : String) :
    ToBytes { hash := h, rawData := raw, sourceType := st,
              displayHint := dh, modifierState := ms } =
      1 :: st % 256 :: ms % 256 :: raw.length % 256 ::
        (raw.length / 256) % 256 :: raw := rfl

/-- Counterexample to C3 as stated: for a signature whose rawData holds
65536 bytes, `uint16(len(s.RawData))` in `ToBytes` wraps to 0, so the
round trip succeeds but returns an empty rawData instead of the original
65536 bytes. -/
theorem SignatureFromBytes_ToBytes_wraps_at_65536 :
    ((SignatureFromBytes (ToBytes
        { hash := 0, rawData := List.replicate 65536 0, sourceType := 0,
          displayHint := "", modifierState := 0 })).toOption.map
      InputSignature.rawData) = some [] ∧
    List.replicate (65536 : Nat) (0 : Nat) ≠ [] := by
  constructor
  · rw [toBytes_mk, List.length_replicate]
    have m1 : (65536 : Nat) % 256 = 0 := by norm_num
    rw [m1, signatureFromBytes_cons_eq]
    have e1 : (0 : Nat) + 256 * 0 = 0 := by norm_num
    rw [e1, List.take_zero, List.length_replicate]
    have e2 : (0 : Nat) - 65536 = 0 := by norm_num
    rw [e2, List.replicate_zero, List.nil_append]
    rfl
  · intro h
    have h2 := congrArg List.length h
    rw [List.length_replicate, List.length_nil] at h2
    omega

/-- C3 amended: the round trip
`SignatureFromBytes (ToBytes s)` succeeds and transports `sourceType`,
`modifierState` and `rawData` exactly, with `hash` and `displayHint`
recomputed from those fields, PROVIDED `rawData` is shorter than 65536
bytes (the serialized length field is 16-bit; at 65536 it wraps and the
raw data is lost).  `sourceType`/`modifierState` are Go `uint8` values,
hence the `< 256` hypotheses. -/
theorem SignatureFromBytes_ToBytes_roundtrip (s : InputSignature)
    (hst : s.sourceType < 256) (hms : s.modifierState < 256)
    (hlen : s.rawData.length < 65536) :
    SignatureFromBytes (ToBytes s) =
      .ok { hash := computeHash s.sourceType s.modifierState s.rawData
            rawData := s.rawData
            sourceType := s.sourceType
            displayHint := generateDisplayHint s.sourceType s.modifierState
              s.rawData (computeHash s.sourceType s.modifierState s.rawData)
            modifierState := s.modifierState } := by
  have ha : s.sourceType % 256 = s.sourceType := Nat.mod_eq_of_lt hst
  have hb : s.modifierState % 256 = s.modifierState := Nat.mod_eq_of_lt hms
  have hdlt : s.rawData.length / 256 < 256 := by omega
  have hrec : s.rawData.length % 256 +
      256 * (s.rawData.length / 256 % 256) = s.rawData.length := by
    rw [Nat.mod_eq_of_lt hdlt]
    exact Nat.mod_add_div _ _
  have hguard : ¬ (ToBytes s).length < 4 := by
    simp [ToBytes]
  simp only [ToBytes] at hguard ⊢
  simp only [SignatureFromBytes, if_neg hguard]
  simp only [ha, hb, List.drop_succ_cons, List.drop_zero, hrec,
    List.take_length, Nat.sub_self, List.replicate_zero, List.append_nil]
  simp

/-- Witness for the amended C3 at a concrete signature. -/
theorem SignatureFromBytes_ToBytes_roundtrip_witness :
    SignatureFromBytes (ToBytes
      { hash := 0, rawData := [67, 0], sourceType := 0, displayHint := "",
        modifierState := 3 }) =
      .ok { hash := computeHash 0 3 [67, 0]
            rawData := [67, 0]
            sourceType := 0
            displayHint := generateDisplayHint 0 3 [67, 0]
              (computeHash 0 3 [67, 0])
            modifierState := 3 } :=
  SignatureFromBytes_ToBytes_roundtrip
    { hash := 0, rawData := [67, 0], sourceType := 0, displayHint := "",
      modifierState := 3 } (by decide) (by decide) (by decide)

/-! ## Claim C2 -/

/-- `find?` returns `some x` exactly when the list splits as
`l1 ++ x :: l2` with `p x` true and `p` false on all of `l1`. -/
theorem find?_eq_some_split {α : Type} (p : α → Bool) (l : List α) (x : α) :
    l.find? p = some x ↔
      ∃ l1 l2, l = l1 ++ x :: l2 ∧ p x = true ∧ ∀ y ∈ l1, p y = false := by
  induction l with
  | nil =>
    constructor
    · intro h; cases h
    · rintro ⟨l1, l2, h, -, -⟩
      exact absurd h (by simp)
  | cons a as ih =>
    by_cases hpa : p a = true
    · rw [List.find?_cons_of_pos _ hpa]
      constructor
      · intro h
        have hax : a = x := by injection h
        subst hax
        exact ⟨[], as, rfl, hpa, by simp⟩
      · rintro ⟨l1, l2, heq, hpx, hl1⟩
        cases l1 with
        | nil =>
          simp only [List.nil_append] at heq
          injection heq with h1 h2
          rw [h1]
        | cons b bs =>
          simp only [List.cons_append] at heq
          injection heq with h1 h2
          subst h1
          have hfalse := hl1 a (List.mem_cons_self a bs)
          rw [hfalse] at hpa
          exact absurd hpa (by simp)
    · rw [List.find?_cons_of_neg _ hpa, ih]
      constructor
      · rintro ⟨l1, l2, heq, hpx, hl1⟩
        refine ⟨a :: l1, l2, by rw [heq, List.cons_append], hpx, ?_⟩
        intro y hy
        rcases List.mem_cons.mp hy with rfl | hy'
        · exact Bool.eq_false_iff.mpr hpa
        · exact hl1 y hy'
      · rintro ⟨l1, l2, heq, hpx, hl1⟩
        cases l1 with
        | nil =>
          simp only [List.nil_append] at heq
          injection heq with h1 h2
          subst h1
          exact absurd hpx hpa
        | cons b bs =>
          simp only [List.cons_append] at heq
          injection heq with h1 h2
          exact ⟨bs, l2, h2, hpx,
            fun y hy => hl1 y (List.mem_cons_of_mem _ hy)⟩

/-- For a registration sitting in the bucket of the query's hash (the
well-formedness invariant), `Equals` coincides with structural
equality: the hash comparison is already settled by the bucket. -/
theorem equals_eq_structEq_of_hash_eq (reg : RegisteredSignature)
    (q : InputSignature) (hh : reg.signature.hash = q.hash) :
    Equals reg.signature q = structEq reg.signature q := by
  simp [Equals, structEq, hh]

/-- C2: on a well-formed registry (every state built by
`Register`/`Unregister`/`UnregisterAll` is), `Match q` returns `cb` iff
the bucket for `q`'s hash splits around a first structurally-equal
registration carrying `cb` — i.e. a callback is returned exactly when a
structurally-equal registration exists in that bucket, it is the first
such entry's callback, and entries that merely share the hash without
structural equality are never returned. -/
theorem Match_first_structural_equal (m : Matcher) (q : InputSignature)
    (hwf : WellFormed m) (cb : Callback) :
    Match m q = some cb ↔
      ∃ l1 reg l2, m q.hash = l1 ++ reg :: l2 ∧
        structEq reg.signature q = true ∧ reg.callback = cb ∧
        ∀ r ∈ l1, structEq r.signature q = false := by
  have hmem : ∀ reg ∈ m q.hash,
      Equals reg.signature q = structEq reg.signature q :=
    fun reg hr => equals_eq_structEq_of_hash_eq reg q (hwf _ _ hr)
  unfold Match
  constructor
  · intro h
    rcases hfound : (m q.hash).find? (fun r => Equals r.signature q) with
      _ | reg
    · rw [hfound] at h; cases h
    · rw [hfound] at h
      have hcb : reg.callback = cb := by injection h
      obtain ⟨l1, l2, heq, hpx, hl1⟩ := (find?_eq_some_split _ _ _).mp hfound
      have hregmem : reg ∈ m q.hash := by
        rw [heq]
        exact List.mem_append_right _ (List.mem_cons_self _ _)
      refine ⟨l1, reg, l2, heq, ?_, hcb, ?_⟩
      · rw [← hmem reg hregmem]; exact hpx
      · intro r hr
        have hrm : r ∈ m q.hash := by
          rw [heq]; exact List.mem_append_left _ hr
        rw [← hmem r hrm]
        exact hl1 r hr
  · rintro ⟨l1, reg, l2, heq, hsx, hcb, hl1⟩
    have hregmem : reg ∈ m q.hash := by
      rw [heq]
      exact List.mem_append_right _ (List.mem_cons_self _ _)
    have hfind : (m q.hash).find? (fun r => Equals r.signature q) =
        some reg := by
      rw [find?_eq_some_split]
      refine ⟨l1, l2, heq, ?_, ?_⟩
      · rw [hmem reg hregmem]; exact hsx
      · intro y hy
        have hym : y ∈ m q.hash := by
          rw [heq]; exact List.mem_append_left _ hy
        rw [hmem y hym]
        exact hl1 y hy
    rw [hfind]
    exact congrArg some hcb

/-- A signature with hash field 5 and raw byte 1. -/
def sigA : InputSignature :=
  { hash := 5, rawData := [1], sourceType := 0, displayHint := "",
    modifierState := 0 }

/-- A hash-colliding signature: same hash field 5, different raw byte. -/
def sigB : InputSignature :=
  { hash := 5, rawData := [2], sourceType := 0, displayHint := "",
    modifierState := 0 }

/-- A registry holding `sigA ↦ 7` and, in the same bucket, `sigB ↦ 9`. -/
def matcherEx : Matcher :=
  Register (Register Matcher.empty sigA "a" 7) sigB "b" 9

/-- Witness for C2 at the colliding-bucket registry. -/
theorem Match_first_structural_equal_witness :
    Match matcherEx sigB = some 9 ↔
      ∃ l1 reg l2, matcherEx sigB.hash = l1 ++ reg :: l2 ∧
        structEq reg.signature sigB = true ∧ reg.callback = 9 ∧
        ∀ r ∈ l1, structEq r.signature sigB = false :=
  Match_first_structural_equal matcherEx sigB
    (wellFormed_register _ _ _ _
      (wellFormed_register _ _ _ _ wellFormed_empty)) 9

/-! ## Claim C6 -/

/-- Helper for C6: a `PasteNext` on an enabled controller with a
non-empty queue dequeues the tail element under LIFO and the head under
FIFO, removes exactly that element (keeping the rest in order), and
leaves `queueEnabled` and `orderStrategy` unchanged, whatever the
clipboard environment does. -/
theorem pasteNext_dequeue (c : Controller) (env : PasteEnv)
    (hen : c.queueEnabled = true) (x : ClipboardContent)
    (xs : List ClipboardContent) (hq : c.queue = x :: xs) :
    (PasteNext c env).1.queueEnabled = true ∧
    (PasteNext c env).1.orderStrategy = c.orderStrategy ∧
    (PasteNext c env).1.queue =
      (if c.orderStrategy = "LIFO" then (x :: xs).dropLast else xs) ∧
    (PasteNext c env).2.1 =
      some (if c.orderStrategy = "LIFO"
            then (x :: xs).getLast (List.cons_ne_nil x xs) else x) := by
  unfold PasteNext
  rw [hen]
  simp only [Bool.true_eq_false, if_false]
  rw [hq]
  rcases env.readBefore with - | before <;>
    rcases hw : env.writeItemOk with - | - <;>
      rcases hs : env.sendCtrlVOk with - | - <;>
        simp [addSelfEvent, addSelfEventLocked, hw, hs]

/-- C6: from an enabled controller whose queue is `[a, b, c]` (appended
in that order), three `PasteNext` calls dequeue `c`, `b`, `a` under
LIFO (tail removal) and `a`, `b`, `c` under FIFO (head removal), the
remaining elements keeping their relative order after each removal. -/
theorem PasteNext_order_strategy (s : Controller)
    (a b c : ClipboardContent) (e1 e2 e3 : PasteEnv)
    (hen : s.queueEnabled = true) (hq : s.queue = [a, b, c]) :
    (s.orderStrategy = "LIFO" →
      (PasteNext s e1).2.1 = some c ∧
      (PasteNext s e1).1.queue = [a, b] ∧
      (PasteNext (PasteNext s e1).1 e2).2.1 = some b ∧
      (PasteNext (PasteNext s e1).1 e2).1.queue = [a] ∧
      (PasteNext (PasteNext (PasteNext s e1).1 e2).1 e3).2.1 = some a ∧
      (PasteNext (PasteNext (PasteNext s e1).1 e2).1 e3).1.queue = []) ∧
    (s.orderStrategy = "FIFO" →
      (PasteNext s e1).2.1 = some a ∧
      (PasteNext s e1).1.queue = [b, c] ∧
      (PasteNext (PasteNext s e1).1 e2).2.1 = some b ∧
      (PasteNext (PasteNext s e1).1 e2).1.queue = [c] ∧
      (PasteNext (PasteNext (PasteNext s e1).1 e2).1 e3).2.1 = some c ∧
      (PasteNext (PasteNext (PasteNext s e1).1 e2).1 e3).1.queue = []) := by
  constructor
  · intro hord
    obtain ⟨hen1, hord1, hq1, hi1⟩ := pasteNext_dequeue s e1 hen a [b, c] hq
    rw [hord] at hq1 hi1
    simp only [if_pos rfl] at hq1 hi1
    have hq1' : (PasteNext s e1).1.queue = [a, b] := by
      simpa [List.dropLast] using hq1
    have hi1' : (PasteNext s e1).2.1 = some c := by
      simpa [List.getLast] using hi1
    obtain ⟨hen2, hord2, hq2, hi2⟩ :=
      pasteNext_dequeue (PasteNext s e1).1 e2 hen1 a [b] hq1'
    rw [hord1, hord] at hq2 hi2
    simp only [if_pos rfl] at hq2 hi2
    have hq2' : (PasteNext (PasteNext s e1).1 e2).1.queue = [a] := by
      simpa [List.dropLast] using hq2
    have hi2' : (PasteNext (PasteNext s e1).1 e2).2.1 = some b := by
      simpa [List.getLast] using hi2
    obtain ⟨hen3, hord3, hq3, hi3⟩ :=
      pasteNext_dequeue (PasteNext (PasteNext s e1).1 e2).1 e3 hen2 a [] hq2'
    rw [hord2, hord1, hord] at hq3 hi3
    simp only [if_pos rfl] at hq3 hi3
    have hq3' :
        (PasteNext (PasteNext (PasteNext s e1).1 e2).1 e3).1.queue = [] := by
      simpa [List.dropLast] using hq3
    have hi3' :
        (PasteNext (PasteNext (PasteNext s e1).1 e2).1 e3).2.1 = some a := by
      simpa [List.getLast] using hi3
    exact ⟨hi1', hq1', hi2', hq2', hi3', hq3'⟩
  · intro hord
    have hord' : ¬ s.orderStrategy = "LIFO" := by rw [hord]; decide
    obtain ⟨hen1, hord1, hq1, hi1⟩ := pasteNext_dequeue s e1 hen a [b, c] hq
    rw [if_neg hord'] at hq1 hi1
    have hord1' : ¬ (PasteNext s e1).1.orderStrategy = "LIFO" := by
      rw [hord1]; exact hord'
    obtain ⟨hen2, hord2, hq2, hi2⟩ :=
      pasteNext_dequeue (PasteNext s e1).1 e2 hen1 b [c] hq1
    rw [if_neg hord1'] at hq2 hi2
    have hord2' :
        ¬ (PasteNext (PasteNext s e1).1 e2).1.orderStrategy = "LIFO" := by
      rw [hord2]; exact hord1'
    obtain ⟨hen3, hord3, hq3, hi3⟩ :=
      pasteNext_dequeue (PasteNext (PasteNext s e1).1 e2).1 e3 hen2 c [] hq2
    rw [if_neg hord2'] at hq3 hi3
    exact ⟨hi1, hq1, hi2, hq2, hi3, hq3⟩

/-- An enabled LIFO controller whose queue holds three items. -/
def lifoStart : Controller :=
  { NewController "LIFO" with
      queueEnabled := true
      queue := [sampleText, sampleText2, sampleText] }

/-- A clipboard environment whose initial read fails (the queue part of
`PasteNext` is unaffected by the environment). -/
def failEnv : PasteEnv :=
  { readBefore := .error (), writeItemOk := false, seqAfterWrite := 0,
    sendCtrlVOk := false, seqAfterErrRestore := 0, seqAfterRestore := 0 }

/-- Witness for C6 at a concrete LIFO controller and environment. -/
theorem PasteNext_order_strategy_witness :
    (lifoStart.orderStrategy = "LIFO" →
      (PasteNext lifoStart failEnv).2.1 = some sampleText ∧
      (PasteNext lifoStart failEnv).1.queue = [sampleText, sampleText2] ∧
      (PasteNext (PasteNext lifoStart failEnv).1 failEnv).2.1 =
        some sampleText2 ∧
      (PasteNext (PasteNext lifoStart failEnv).1 failEnv).1.queue =
        [sampleText] ∧
      (PasteNext (PasteNext (PasteNext lifoStart failEnv).1 failEnv).1
        failEnv).2.1 = some sampleText ∧
      (PasteNext (PasteNext (PasteNext lifoStart failEnv).1 failEnv).1
        failEnv).1.queue = []) ∧
    (lifoStart.orderStrategy = "FIFO" →
      (PasteNext lifoStart failEnv).2.1 = some sampleText ∧
      (PasteNext lifoStart failEnv).1.queue = [sampleText2, sampleText] ∧
      (PasteNext (PasteNext lifoStart failEnv).1 failEnv).2.1 =
        some sampleText2 ∧
      (PasteNext (PasteNext lifoStart failEnv).1 failEnv).1.queue =
        [sampleText] ∧
      (PasteNext (PasteNext (PasteNext lifoStart failEnv).1 failEnv).1
        failEnv).2.1 = some sampleText ∧
      (PasteNext (PasteNext (PasteNext lifoStart failEnv).1 failEnv).1
        failEnv).1.queue = []) :=
  PasteNext_order_strategy lifoStart sampleText sampleText2 sampleText
    failEnv failEnv failEnv rfl rfl

/-! ## Claim C7 -/

/-- Helper for C7: one `OnClipboardUpdate` either leaves the history
untouched or replaces it by `pushHistory history content` for the read
content. -/
theorem onClipboardUpdate_history_cases (c : Controller) (seq : Nat)
    (readRes : Except Unit ClipboardContent) :
    (OnClipboardUpdate c seq readRes).1.history = c.history ∨
    ∃ content, readRes = .ok content ∧
      (OnClipboardUpdate c seq readRes).1.history =
        pushHistory c.history content := by
  unfold OnClipboardUpdate
  by_cases hself : isSelfEvent c seq
  · simp [hself]
  · simp only [hself, Bool.false_eq_true, if_false]
    rcases readRes with - | content
    · simp
    · by_cases hempty : content.type = ContentType.Empty
      · simp [hempty]
      · by_cases hdup : dupCheck c.history content
        · simp [hempty, hdup]
        · by_cases hen : c.queueEnabled
          · exact Or.inr ⟨content, rfl, by simp [hempty, hdup, hen]⟩
          · exact Or.inr ⟨content, rfl, by simp [hempty, hdup, hen]⟩

/-- Helper for C7: `pushHistory` never grows the history beyond 50. -/
theorem pushHistory_length_le (hist : List ClipboardContent)
    (content : ClipboardContent) (h : hist.length ≤ 50) :
    (pushHistory hist content).length ≤ 50 := by
  unfold pushHistory
  by_cases h50 : hist.length ≥ 50
  · rw [if_pos h50]
    simp only [List.length_append, List.length_tail, List.length_cons,
      List.length_nil]
    omega
  · rw [if_neg h50]
    simp only [List.length_append, List.length_cons, List.length_nil]
    omega

/-- Helper for C7: one update preserves the 50-entry bound. -/
theorem onClipboardUpdate_history_le (c : Controller) (seq : Nat)
    (readRes : Except Unit ClipboardContent) (h : c.history.length ≤ 50) :
    (OnClipboardUpdate c seq readRes).1.history.length ≤ 50 := by
  rcases onClipboardUpdate_history_cases c seq readRes with heq |
    ⟨content, -, heq⟩
  · rw [heq]; exact h
  · rw [heq]; exact pushHistory_length_le _ _ h

/-- Helper for C7: no controller operation other than
`OnClipboardUpdate` touches the history. -/
theorem history_untouched_by_other_ops (c : Controller) (order : String)
    (index : Int) (penv : PasteEnv) (tenv : ToggleEnv) :
    (ClearQueue c).1.history = c.history ∧
    (ToggleOrder c).1.history = c.history ∧
    (SetOrderStrategy c order).1.history = c.history ∧
    (RemoveItem c index).1.history = c.history ∧
    (PasteNext c penv).1.history = c.history ∧
    (ToggleQueue c tenv).1.history = c.history := by
  refine ⟨?_, rfl, ?_, ?_, ?_, ?_⟩
  · unfold ClearQueue
    split <;> rfl
  · unfold SetOrderStrategy
    split
    · rfl
    · split <;> rfl
  · unfold RemoveItem
    split <;> rfl
  · unfold PasteNext
    split
    · rfl
    · split
      · rfl
      · rcases penv.readBefore with - | - <;>
          rcases hw : penv.writeItemOk with - | - <;>
            rcases hs : penv.sendCtrlVOk with - | - <;>
              simp [addSelfEvent, addSelfEventLocked, hw, hs]
  · unfold ToggleQueue
    split
    · rfl
    · split <;> simp [addSelfEventLocked]

/-- C7: (1) across any sequence of `OnClipboardUpdate` calls the history
never exceeds 50 entries; (2) when a call does append to a history that
already holds 50 entries, the resulting history is
`c.history.tail ++ [content]`: the oldest (head) entry is evicted and
the 50 most recent entries are kept in insertion order; (3) every other
controller operation leaves the history exactly unchanged, so the bound
is an invariant of the whole controller. -/
theorem history_bounded_oldest_evicted :
    (∀ (c : Controller)
        (updates : List (Nat × Except Unit ClipboardContent)),
      c.history.length ≤ 50 → (runUpdates c updates).history.length ≤ 50) ∧
    (∀ (c : Controller) (seq : Nat)
        (readRes : Except Unit ClipboardContent),
      c.history.length = 50 →
        (OnClipboardUpdate c seq readRes).1.history = c.history ∨
        ∃ content, readRes = .ok content ∧
          (OnClipboardUpdate c seq readRes).1.history =
            c.history.tail ++ [content]) ∧
    (∀ (c : Controller) (order : String) (index : Int) (penv : PasteEnv)
        (tenv : ToggleEnv),
      (ClearQueue c).1.history = c.history ∧
      (ToggleOrder c).1.history = c.history ∧
      (SetOrderStrategy c order).1.history = c.history ∧
      (RemoveItem c index).1.history = c.history ∧
      (PasteNext c penv).1.history = c.history ∧
      (ToggleQueue c tenv).1.history = c.history) := by
  refine ⟨?_, ?_, fun c order index penv tenv =>
    history_untouched_by_other_ops c order index penv tenv⟩
  · intro c updates
    induction updates generalizing c with
    | nil => intro h; exact h
    | cons u us ih =>
      intro h
      exact ih _ (onClipboardUpdate_history_le c u.1 u.2 h)
  · intro c seq readRes h50
    rcases onClipboardUpdate_history_cases c seq readRes with heq |
      ⟨content, hok, heq⟩
    · exact Or.inl heq
    · refine Or.inr ⟨content, hok, ?_⟩
      rw [heq]
      unfold pushHistory
      rw [if_pos (by omega)]

/-- A controller whose history already holds 50 entries. -/
def fullHistController : Controller :=
  { NewController "LIFO" with history := List.replicate 50 sampleText }

/-- Witness for C7: the bound holds after two concrete updates from a
fresh controller, and an update on a 50-entry history either leaves it
or evicts the head. -/
theorem history_bounded_oldest_evicted_witness :
    ((runUpdates (NewController "LIFO")
        [(1, .ok sampleText), (2, .ok sampleText2)]).history.length ≤ 50) ∧
    ((OnClipboardUpdate fullHistController 1 (.ok sampleText2)).1.history =
        fullHistController.history ∨
      ∃ content, (.ok content : Except Unit ClipboardContent) =
          .ok sampleText2 ∧
        (OnClipboardUpdate fullHistController 1 (.ok sampleText2)).1.history =
          fullHistController.history.tail ++ [content]) := by
  constructor
  · exact history_bounded_oldest_evicted.1 (NewController "LIFO")
      [(1, .ok sampleText), (2, .ok sampleText2)] (by decide)
  · have h := history_bounded_oldest_evicted.2.1 fullHistController 1
      (.ok sampleText2) (by simp [fullHistController, NewController])
    rcases h with h | ⟨content, hok, h⟩
    · exact Or.inl h
    · exact Or.inr ⟨content, hok.symm, h⟩

/-! ## Claim C5 -/

/-- Helper: an `OnClipboardUpdate` that passes all guards appends the
content to the history (with rotation), leaves the self-event ring
untouched, and appends to the queue only when enabled. -/
theorem onClipboardUpdate_append (c : Controller) (seq : Nat)
    (content : ClipboardContent) (hself : isSelfEvent c seq = false)
    (hne : content.type ≠ ContentType.Empty)
    (hdup : dupCheck c.history content = false) :
    (OnClipboardUpdate c seq (.ok content)).1.history =
      pushHistory c.history content ∧
    (OnClipboardUpdate c seq (.ok content)).1.selfEventsRing =
      c.selfEventsRing ∧
    (OnClipboardUpdate c seq (.ok content)).1.queue =
      (if c.queueEnabled then c.queue ++ [content] else c.queue) := by
  unfold OnClipboardUpdate
  by_cases hen : c.queueEnabled <;>
    simp [hself, hne, hdup, hen]

/-- Helper: an `OnClipboardUpdate` dropped by the deduplication guard
returns the controller state exactly unchanged. -/
theorem onClipboardUpdate_dedup_noop (c : Controller) (seq : Nat)
    (content : ClipboardContent) (hself : isSelfEvent c seq = false)
    (hne : content.type ≠ ContentType.Empty)
    (hdup : dupCheck c.history content = true) :
    (OnClipboardUpdate c seq (.ok content)).1 = c := by
  unfold OnClipboardUpdate
  simp [hself, hne, hdup]

/-- C5: starting from a controller with empty history, two successive
non-suppressed, non-empty updates of the same type whose contents match
(equal text for Text, equal size otherwise): if the second content's
timestamp is less than one second after the first's (= the last history
entry's), the second call changes nothing — the pair yields exactly the
one entry `[cont1]` and the queue is untouched; if the timestamps differ
by more than one second, both entries land in history. -/
theorem OnClipboardUpdate_dedup_window (c0 : Controller) (seq1 seq2 : Nat)
    (cont1 cont2 : ClipboardContent)
    (hh : c0.history = [])
    (h1 : isSelfEvent c0 seq1 = false)
    (h2 : isSelfEvent c0 seq2 = false)
    (ht1 : cont1.type ≠ ContentType.Empty)
    (hteq : cont2.type = cont1.type)
    (hmatch : if cont2.type = ContentType.Text then cont2.text = cont1.text
              else cont2.sizeBytes = cont1.sizeBytes) :
    (OnClipboardUpdate c0 seq1 (.ok cont1)).1.history = [cont1] ∧
    (cont2.timestamp - cont1.timestamp < 1000000000 →
      (OnClipboardUpdate (OnClipboardUpdate c0 seq1 (.ok cont1)).1 seq2
        (.ok cont2)).1.history = [cont1] ∧
      (OnClipboardUpdate (OnClipboardUpdate c0 seq1 (.ok cont1)).1 seq2
        (.ok cont2)).1.queue =
        (OnClipboardUpdate c0 seq1 (.ok cont1)).1.queue) ∧
    (cont2.timestamp - cont1.timestamp > 1000000000 →
      (OnClipboardUpdate (OnClipboardUpdate c0 seq1 (.ok cont1)).1 seq2
        (.ok cont2)).1.history = [cont1, cont2]) := by
  have hdup1 : dupCheck c0.history cont1 = false := by
    rw [hh]; rfl
  obtain ⟨hhist1, hring1, -⟩ :=
    onClipboardUpdate_append c0 seq1 cont1 h1 ht1 hdup1
  have hhist1' : (OnClipboardUpdate c0 seq1 (.ok cont1)).1.history =
      [cont1] := by
    rw [hhist1, hh]
    simp [pushHistory]
  have hself2 : isSelfEvent (OnClipboardUpdate c0 seq1 (.ok cont1)).1 seq2 =
      false := by
    unfold isSelfEvent
    rw [hring1]
    exact h2
  have ht2 : cont2.type ≠ ContentType.Empty := by rw [hteq]; exact ht1
  refine ⟨hhist1', ?_, ?_⟩
  · intro hwin
    have hdup2 : dupCheck (OnClipboardUpdate c0 seq1 (.ok cont1)).1.history
        cont2 = true := by
      rw [hhist1']
      unfold dupCheck
      simp only [List.getLast?_singleton]
      rw [Bool.and_eq_true, Bool.and_eq_true]
      refine ⟨⟨?_, ?_⟩, ?_⟩
      · exact beq_iff_eq.mpr hteq
      · exact decide_eq_true hwin
      · by_cases htext : cont2.type = ContentType.Text
        · rw [if_pos htext]
          rw [if_pos htext] at hmatch
          exact beq_iff_eq.mpr hmatch
        · rw [if_neg htext]
          rw [if_neg htext] at hmatch
          exact beq_iff_eq.mpr hmatch
    have hnoop := onClipboardUpdate_dedup_noop _ seq2 cont2 hself2 ht2 hdup2
    rw [hnoop]
    exact ⟨hhist1', rfl⟩
  · intro hfar
    have hdup2 : dupCheck (OnClipboardUpdate c0 seq1 (.ok cont1)).1.history
        cont2 = false := by
      rw [hhist1']
      unfold dupCheck
      simp only [List.getLast?_singleton]
      have hdec : decide (cont2.timestamp - cont1.timestamp < 1000000000) =
          false := by
        rw [decide_eq_false_iff_not]
        omega
      rw [hdec]
      simp
    obtain ⟨hhist2, -, -⟩ :=
      onClipboardUpdate_append _ seq2 cont2 hself2 ht2 hdup2
    rw [hhist2, hhist1']
    simp [pushHistory]

/-- Witness for C5 at concrete contents 900ms apart (suppressed) — the
over-a-second conclusion is instantiated vacuously-true at this input
pair's real 900ms gap being under the window. -/
theorem OnClipboardUpdate_dedup_window_witness :
    (OnClipboardUpdate (NewController "LIFO") 1 (.ok sampleText)).1.history =
      [sampleText] ∧
    ({ sampleText with timestamp := 900000000 }.timestamp -
        sampleText.timestamp < 1000000000 →
      (OnClipboardUpdate
        (OnClipboardUpdate (NewController "LIFO") 1 (.ok sampleText)).1 2
        (.ok { sampleText with timestamp := 900000000 })).1.history =
        [sampleText] ∧
      (OnClipboardUpdate
        (OnClipboardUpdate (NewController "LIFO") 1 (.ok sampleText)).1 2
        (.ok { sampleText with timestamp := 900000000 })).1.queue =
        (OnClipboardUpdate (NewController "LIFO") 1 (.ok sampleText)).1.queue) ∧
    ({ sampleText with timestamp := 900000000 }.timestamp -
        sampleText.timestamp > 1000000000 →
      (OnClipboardUpdate
        (OnClipboardUpdate (NewController "LIFO") 1 (.ok sampleText)).1 2
        (.ok { sampleText with timestamp := 900000000 })).1.history =
        [sampleText, { sampleText with timestamp := 900000000 }]) :=
  OnClipboardUpdate_dedup_window (NewController "LIFO") 1 2 sampleText
    { sampleText with timestamp := 900000000 } rfl (by decide) (by decide)
    (by decide) rfl (by decide)

end ClipQueue
